import Mathlib

/-!
Verification of the memory-cortex hybrid retrieval and deduplication engine.

The definitions below are a shallow embedding of the TypeScript source:
`db.ts` (escapeIlike), `embeddings.ts` (embed, checkEmbeddingService) and
`tools.ts` (findSimilarNote, findSimilarInstruction, findSimilarErrorPattern,
addNote, logErrorPattern, addInstruction, removeInstruction, retrieveMemory).
SQL tables become lists of records, `now()` and `randomUUID()` become
explicit environment parameters, the pg_trgm `similarity` function and the
pgvector distance operator become abstract function parameters, and the
embedding service outcome becomes an explicit `Option` value.
-/

namespace MemoryCortex

abbrev Vec := List Int

/-- Row of the `notes` table. -/
structure Note where
  id : Nat
  project_id : String
  content : String
  category : String
  tags : List String
  related_files : List String
  snapshot_id : Option Nat
  created_at : Nat
deriving DecidableEq

/-- Row of the `instructions` table. -/
structure Instruction where
  id : Nat
  project_id : String
  content : String
  category : String
  priority : Nat
  tags : List String
  active : Bool
  created_at : Nat
deriving DecidableEq

/-- Row of the `error_patterns` table. -/
structure ErrorPattern where
  id : Nat
  project_id : String
  error_message : String
  error_type : String
  attempted_fixes : List String
  root_cause : Option String
  resolution : Option String
  file_paths : List String
  tags : List String
  occurrence_count : Nat
  last_seen_at : Nat
  created_at : Nat
deriving DecidableEq

/-- Row of the `memory_embeddings` table.  Rows are only ever inserted with a
vector, mirroring the code (which skips the insert when `embed` returns null). -/
structure EmbeddingRow where
  id : Nat
  project_id : String
  source_type : String
  source_id : Nat
  content_type : String
  content_text : String
  embedding : Vec
  created_at : Nat
  tags : List String
deriving DecidableEq

/-- The durable store: the four tables the engine touches. -/
structure DB where
  notes : List Note
  instructions : List Instruction
  error_patterns : List ErrorPattern
  embeddings : List EmbeddingRow
deriving DecidableEq

-- ── ILIKE escaping and matching (db.ts escapeIlike, SQL ILIKE) ──

/-- Characters special to SQL LIKE patterns (plus the escape character). -/
def isIlikeSpecial (c : Char) : Bool := c == '%' || c == '_' || c == '\\'

/-- Character-level model of `s.replace(/[%_\\]/g, "\\$&")`. -/
def escapeChars : List Char → List Char
  | [] => []
  | c :: cs => if isIlikeSpecial c then '\\' :: c :: escapeChars cs else c :: escapeChars cs

/-- Model of `escapeIlike` from db.ts. -/
def escapeIlike (s : String) : String := ⟨escapeChars s.data⟩

/-- SQL LIKE pattern matching over character lists: `%` matches any sequence,
`_` matches one character, backslash escapes the next pattern character, and a
dangling backslash matches nothing. -/
def likeMatch : List Char → List Char → Bool
  | [], ts => ts.isEmpty
  | p :: ps, ts =>
    if p = '%' then ts.tails.any fun suf => likeMatch ps suf
    else if p = '\\' then
      match ps, ts with
      | q :: ps', t :: ts' => t == q && likeMatch ps' ts'
      | _, _ => false
    else
      match ts with
      | [] => false
      | t :: ts' => if p = '_' then likeMatch ps ts' else (t == p) && likeMatch ps ts'

/-- Lower-case a character list (ILIKE is case-insensitive). -/
def lowerChars (s : List Char) : List Char := s.map Char.toLower

/-- Model of SQL `txt ILIKE pat`: lower-case both sides, then LIKE-match. -/
def ilike (txt pat : String) : Bool := likeMatch (lowerChars pat.data) (lowerChars txt.data)

/-- Spec-side notion of literal containment: `q` occurs contiguously in `t`. -/
def containsLit (q t : List Char) : Prop := ∃ a b, t = a ++ q ++ b

-- ── Auxiliary list machinery (models of SQL ORDER BY and of JS Set dedup) ──

/-- Insert into a sorted list (auxiliary for `sortB`). -/
def insertB (le : α → α → Bool) (a : α) : List α → List α
  | [] => [a]
  | b :: bs => if le a b then a :: b :: bs else b :: insertB le a bs

/-- Stable insertion sort by a boolean comparison; models SQL `ORDER BY`. -/
def sortB (le : α → α → Bool) : List α → List α
  | [] => []
  | a :: as => insertB le a (sortB le as)

/-- Remove duplicates keeping the first occurrence, with an explicit seen set;
models JS `[...new Set(list)]`. -/
def dedupFirstAux (seen : List String) : List String → List String
  | [] => []
  | x :: xs => if seen.contains x then dedupFirstAux seen xs else x :: dedupFirstAux (x :: seen) xs

/-- Model of `[...new Set(list)]`: duplicates dropped, first occurrences kept. -/
def dedupFirst (l : List String) : List String := dedupFirstAux [] l

/-- JS coercion `s || null`: an omitted or empty string collapses to null. -/
def strOrNull (o : Option String) : Option String :=
  match o with
  | some s => if s == "" then none else some s
  | none => none

-- ── Embedding Gateway (embeddings.ts) ──

/-- Outcome of the remote `fetch` to the embedding service on this call. -/
inductive FetchOutcome where
  | ok (vecs : List Vec)
  | httpError
  | netError
  | timeout
deriving DecidableEq

/-- Per-call environment of the gateway: what the liveness probe would report
and what the batch embedding call would do. -/
structure EmbedEnv where
  health : Bool
  outcome : FetchOutcome
deriving DecidableEq

/-- Model of `checkEmbeddingService`: probes `/health`, records availability.
Returns the probe result and the new availability flag. -/
def checkEmbeddingService (env : EmbedEnv) : Bool × Option Bool :=
  (env.health, some env.health)

/-- Model of `embed` from embeddings.ts.  `flag` is the process-wide
`embeddingAvailable` tri-state (`none` at boot).  Returns the vectors (or
`none` on any failure) together with the updated flag.  A non-success HTTP
response returns `none` without flipping the flag; a network error or timeout
flips the flag to `false`. -/
def embed (flag : Option Bool) (env : EmbedEnv) (texts : List String) :
    Option (List Vec) × Option Bool :=
  if texts.isEmpty then (some [], flag)
  else
    let flag1 := match flag with
      | some true => some true
      | _ => (checkEmbeddingService env).2
    if flag1 = some true then
      match env.outcome with
      | .ok vecs => (some vecs, flag1)
      | .httpError => (none, flag1)
      | .netError => (none, some false)
      | .timeout => (none, some false)
    else (none, flag1)

-- ── Similarity Resolver (tools.ts findSimilar*) ──

/-- The fuzzy text-similarity capability: either the pg_trgm `similarity`
function is available, or the similarity query raises (extension missing or
query error) and the catch-block fallback runs. -/
inductive SimCap where
  | avail (score : String → String → ℚ)
  | failed

/-- Model of `findSimilarNote`: best note in the same project and category with
similarity above 0.8, or (on capability failure) the first exact-content match. -/
def findSimilarNote (cap : SimCap) (db : DB) (projectId content category : String) :
    Option Nat :=
  match cap with
  | .avail score =>
      ((sortB (fun a b => decide (score b.content content ≤ score a.content content))
          (db.notes.filter fun n =>
            n.project_id == projectId && n.category == category &&
              decide (score n.content content > 4/5))).head?).map (·.id)
  | .failed =>
      ((db.notes.filter fun n =>
          n.project_id == projectId && n.category == category && n.content == content).head?).map (·.id)

/-- Model of `findSimilarInstruction`: best active instruction in the same
project with similarity above 0.8, or the first exact-content match on failure. -/
def findSimilarInstruction (cap : SimCap) (db : DB) (projectId content : String) :
    Option Nat :=
  match cap with
  | .avail score =>
      ((sortB (fun a b => decide (score b.content content ≤ score a.content content))
          (db.instructions.filter fun ins =>
            ins.project_id == projectId && ins.active &&
              decide (score ins.content content > 4/5))).head?).map (·.id)
  | .failed =>
      ((db.instructions.filter fun ins =>
          ins.project_id == projectId && ins.active && ins.content == content).head?).map (·.id)

/-- Model of `findSimilarErrorPattern`: best error pattern in the same project
with similarity above 0.7, or the first exact-message match on failure. -/
def findSimilarErrorPattern (cap : SimCap) (db : DB) (projectId errorMessage : String) :
    Option ErrorPattern :=
  match cap with
  | .avail score =>
      (sortB (fun a b => decide (score b.error_message errorMessage ≤ score a.error_message errorMessage))
          (db.error_patterns.filter fun e =>
            e.project_id == projectId &&
              decide (score e.error_message errorMessage > 7/10))).head?
  | .failed =>
      (db.error_patterns.filter fun e =>
          e.project_id == projectId && e.error_message == errorMessage).head?

-- ── Write-path environment ──

/-- Per-call write environment: the ids `randomUUID()` would produce, the value
of `now()`, and the embedding-gateway outcome for the (single) text embedded by
this call (`none` when the gateway is unavailable or the call failed). -/
structure WriteEnv where
  freshId : Nat
  freshEmbId : Nat
  now : Nat
  embedVec : Option Vec
deriving DecidableEq

/-- Id and dedup flag returned by the write operations. -/
structure WriteResult where
  id : Nat
  deduplicated : Bool
deriving DecidableEq

-- ── addNote (tools.ts) ──

structure NoteParams where
  content : String
  category : Option String := none
  tags : Option (List String) := none
  related_files : Option (List String) := none
  snapshot_id : Option Nat := none
deriving DecidableEq

/-- Content-type classification used when a new note is embedded. -/
def noteContentType (category : String) : String :=
  if category == "decision" then "decision"
  else if category == "debug" then "debug"
  else "note"

/-- Model of `addNote`: dedup against similar notes; on a match overwrite
content, tags and timestamp and refresh the note embedding (when the gateway
returns a vector); otherwise insert a new note plus (gateway permitting) an
embedding row. -/
def addNote (cap : SimCap) (env : WriteEnv) (db : DB) (projectId : String)
    (p : NoteParams) : DB × WriteResult :=
  let category := (strOrNull p.category).getD "general"
  match findSimilarNote cap db projectId p.content category with
  | some existingId =>
      let notes1 := db.notes.map fun n =>
        if n.id == existingId then
          { n with content := p.content, tags := p.tags.getD [], created_at := env.now }
        else n
      let db1 : DB := { db with notes := notes1 }
      let db2 : DB :=
        match env.embedVec with
        | some v =>
            { db1 with embeddings := db1.embeddings.map fun e =>
                if e.source_type == "note" && e.source_id == existingId then
                  { e with content_text := p.content, embedding := v, created_at := env.now }
                else e }
        | none => db1
      (db2, { id := existingId, deduplicated := true })
  | none =>
      let id := env.freshId
      let newNote : Note :=
        { id := id, project_id := projectId, content := p.content, category := category,
          tags := p.tags.getD [], related_files := p.related_files.getD [],
          snapshot_id := p.snapshot_id, created_at := env.now }
      let db1 : DB := { db with notes := db.notes ++ [newNote] }
      let db2 : DB :=
        match env.embedVec with
        | some v =>
            { db1 with embeddings := db1.embeddings ++
                [{ id := env.freshEmbId, project_id := projectId, source_type := "note",
                   source_id := id, content_type := noteContentType category,
                   content_text := p.content, embedding := v, created_at := env.now,
                   tags := p.tags.getD [] }] }
        | none => db1
      (db2, { id := id, deduplicated := false })

-- ── logErrorPattern (tools.ts) ──

structure ErrorPatternParams where
  error_message : String
  error_type : Option String := none
  attempted_fixes : Option (List String) := none
  root_cause : Option String := none
  resolution : Option String := none
  file_paths : Option (List String) := none
  tags : Option (List String) := none
deriving DecidableEq

/-- Model of `logErrorPattern`: dedup against similar error patterns; on a
match increment occurrence count, union attempted fixes, COALESCE-update
cause/resolution/file paths and refresh `last_seen_at`, re-embedding only when
a (truthy) resolution was supplied; otherwise insert a new pattern. -/
def logErrorPattern (cap : SimCap) (env : WriteEnv) (db : DB) (projectId : String)
    (p : ErrorPatternParams) : DB × WriteResult :=
  match findSimilarErrorPattern cap db projectId p.error_message with
  | some existing =>
      let mergedFixes := dedupFirst (existing.attempted_fixes ++ p.attempted_fixes.getD [])
      let eps1 := db.error_patterns.map fun e =>
        if e.id == existing.id then
          { e with occurrence_count := e.occurrence_count + 1,
                   last_seen_at := env.now,
                   attempted_fixes := mergedFixes,
                   root_cause :=
                     match strOrNull p.root_cause with
                     | some v => some v
                     | none => e.root_cause,
                   resolution :=
                     match strOrNull p.resolution with
                     | some v => some v
                     | none => e.resolution,
                   file_paths := p.file_paths.getD e.file_paths }
        else e
      let db1 : DB := { db with error_patterns := eps1 }
      let db2 : DB :=
        match strOrNull p.resolution with
        | some r =>
            (match env.embedVec with
             | some v =>
                 let text := "Error: " ++ p.error_message ++ ". Cause: " ++
                   ((strOrNull p.root_cause).getD "unknown") ++ ". Fix: " ++ r
                 { db1 with embeddings := db1.embeddings.map fun e =>
                     if e.source_type == "error_pattern" && e.source_id == existing.id then
                       { e with content_text := text, embedding := v, created_at := env.now }
                     else e }
             | none => db1)
        | none => db1
      (db2, { id := existing.id, deduplicated := true })
  | none =>
      let id := env.freshId
      let newEp : ErrorPattern :=
        { id := id, project_id := projectId, error_message := p.error_message,
          error_type := (strOrNull p.error_type).getD "general",
          attempted_fixes := p.attempted_fixes.getD [],
          root_cause := strOrNull p.root_cause,
          resolution := strOrNull p.resolution,
          file_paths := p.file_paths.getD [],
          tags := p.tags.getD [],
          occurrence_count := 1, last_seen_at := env.now, created_at := env.now }
      let db1 : DB := { db with error_patterns := db.error_patterns ++ [newEp] }
      let text := ("Error: " ++ p.error_message ++ ". " ++
        ((strOrNull p.root_cause).getD "") ++ " " ++ ((strOrNull p.resolution).getD "")).trim
      let db2 : DB :=
        match env.embedVec with
        | some v =>
            { db1 with embeddings := db1.embeddings ++
                [{ id := env.freshEmbId, project_id := projectId, source_type := "error_pattern",
                   source_id := id, content_type := "error", content_text := text,
                   embedding := v, created_at := env.now, tags := p.tags.getD [] }] }
        | none => db1
      (db2, { id := id, deduplicated := false })

-- ── addInstruction / removeInstruction (tools.ts) ──

structure InstructionParams where
  content : String
  category : Option String := none
  priority : Option Nat := none
  tags : Option (List String) := none
deriving DecidableEq

/-- Model of `addInstruction`: on a similar active instruction, return its id
with no write at all; otherwise insert a new instruction plus (gateway
permitting) an embedding row. -/
def addInstruction (cap : SimCap) (env : WriteEnv) (db : DB) (projectId : String)
    (p : InstructionParams) : DB × WriteResult :=
  match findSimilarInstruction cap db projectId p.content with
  | some existingId => (db, { id := existingId, deduplicated := true })
  | none =>
      let id := env.freshId
      let newIns : Instruction :=
        { id := id, project_id := projectId, content := p.content,
          category := (strOrNull p.category).getD "general",
          priority := p.priority.getD 0, tags := p.tags.getD [],
          active := true, created_at := env.now }
      let db1 : DB := { db with instructions := db.instructions ++ [newIns] }
      let db2 : DB :=
        match env.embedVec with
        | some v =>
            { db1 with embeddings := db1.embeddings ++
                [{ id := env.freshEmbId, project_id := projectId, source_type := "instruction",
                   source_id := id, content_type := "instruction", content_text := p.content,
                   embedding := v, created_at := env.now, tags := p.tags.getD [] }] }
        | none => db1
      (db2, { id := id, deduplicated := false })

/-- Model of `removeInstruction`: `UPDATE instructions SET active = false
WHERE id = $1 AND project_id = $2` — a soft delete, nothing else touched. -/
def removeInstruction (db : DB) (projectId : String) (id : Nat) : DB :=
  { db with instructions := db.instructions.map fun ins =>
      if ins.id == id && ins.project_id == projectId then { ins with active := false } else ins }

-- ── Hybrid Query Engine (tools.ts retrieveMemory) ──

inductive SearchMode where
  | semantic
  | keyword
  | hybrid
deriving DecidableEq

structure SearchParams where
  query : String
  mode : SearchMode := .hybrid
  tags : Option (List String) := none
  limit : Nat := 5
  content_type : Option String := none

/-- One result row, carrying which sub-query produced it and its score. -/
structure SResult where
  id : Nat
  source_type : String
  source_id : Nat
  content_type : String
  content_text : String
  tags : List String
  created_at : Nat
  similarity : ℚ
  search_mode : String
deriving DecidableEq

/-- Postgres array-overlap operator on tag arrays. -/
def tagsOverlap (a b : List String) : Bool := a.any fun t => b.contains t

/-- The optional `content_type` and `tags` filter clauses; a falsy
`content_type` or an empty tag list adds no clause, as in the code. -/
def passesFilters (ct : Option String) (tags : Option (List String)) (e : EmbeddingRow) : Bool :=
  (match strOrNull ct with
   | some c => e.content_type == c
   | none => true) &&
  (match tags with
   | some ts => if ts.isEmpty then true else tagsOverlap e.tags ts
   | none => true)

/-- The semantic sub-query for a successfully embedded query vector: filter by
project and optional clauses, order by vector distance ascending, take `limit`. -/
def semanticResults (dist : Vec → Vec → ℚ) (qv : Vec) (db : DB) (projectId : String)
    (ct : Option String) (tags : Option (List String)) (limit : Nat) : List SResult :=
  ((sortB (fun a b => decide (dist a.embedding qv ≤ dist b.embedding qv))
      (db.embeddings.filter fun e =>
        e.project_id == projectId && passesFilters ct tags e)).take limit).map fun e =>
    { id := e.id, source_type := e.source_type, source_id := e.source_id,
      content_type := e.content_type, content_text := e.content_text, tags := e.tags,
      created_at := e.created_at, similarity := 1 - dist e.embedding qv,
      search_mode := "semantic" }

/-- The semantic sub-query including the unavailable-gateway case, which yields
zero results rather than an error. -/
def semanticSub (dist : Vec → Vec → ℚ) (qvec : Option Vec) (db : DB) (projectId : String)
    (ct : Option String) (tags : Option (List String)) (limit : Nat) : List SResult :=
  match qvec with
  | some v => semanticResults dist v db projectId ct tags limit
  | none => []

/-- The keyword sub-query: case-insensitive escaped-literal substring match,
ordered by recency (most recent first), take `limit`; sentinel score 0. -/
def keywordResults (db : DB) (projectId query : String)
    (ct : Option String) (tags : Option (List String)) (limit : Nat) : List SResult :=
  ((sortB (fun a b => decide (b.created_at ≤ a.created_at))
      (db.embeddings.filter fun e =>
        e.project_id == projectId && ilike e.content_text ("%" ++ escapeIlike query ++ "%") &&
          passesFilters ct tags e)).take limit).map fun e =>
    { id := e.id, source_type := e.source_type, source_id := e.source_id,
      content_type := e.content_type, content_text := e.content_text, tags := e.tags,
      created_at := e.created_at, similarity := 0, search_mode := "keyword" }

/-- The code's dedup filter with its mutable `seen` set made explicit. -/
def dedupSeenAux (seen : List Nat) : List SResult → List SResult
  | [] => []
  | r :: rest =>
      if seen.contains r.id then dedupSeenAux seen rest
      else r :: dedupSeenAux (r.id :: seen) rest

/-- Spec-side duplicate removal by record identity, keeping the first
(highest-ranked) occurrence. -/
def dedupSpec : List SResult → List SResult
  | [] => []
  | r :: rest => r :: dedupSpec (rest.filter fun x => x.id != r.id)
  termination_by l => l.length
  decreasing_by
    exact Nat.lt_succ_of_le (List.length_filter_le _ _)

/-- Model of `retrieveMemory`: run the sub-queries the mode asks for; in hybrid
mode concatenate semantic results before keyword results, drop duplicate ids
keeping the first occurrence, and truncate to `limit`; other modes return their
single sub-query's results as-is. -/
def retrieveMemory (dist : Vec → Vec → ℚ) (qvec : Option Vec) (db : DB)
    (projectId : String) (p : SearchParams) : List SResult :=
  let sem :=
    if p.mode = .semantic ∨ p.mode = .hybrid then
      semanticSub dist qvec db projectId p.content_type p.tags p.limit
    else []
  let kw :=
    if p.mode = .keyword ∨ p.mode = .hybrid then
      keywordResults db projectId p.query p.content_type p.tags p.limit
    else []
  let results := sem ++ kw
  if p.mode = .hybrid then (dedupSeenAux [] results).take p.limit else results

-- ── Spec-level invariant (embedding freshness) ──

/-- The spec's freshness invariant, instantiated to notes: every embedding row
attached to a note carries that note's current content. -/
def embFresh (db : DB) : Prop :=
  ∀ e ∈ db.embeddings, e.source_type = "note" →
    ∀ n ∈ db.notes, n.id = e.source_id → e.content_text = n.content

-- ══════════════════════════════════════════════════════════════
-- Lemmas about the LIKE matcher and escaping (claim C7)
-- ══════════════════════════════════════════════════════════════

lemma likeMatch_cons (p : Char) (ps ts : List Char) :
    likeMatch (p :: ps) ts =
    if p = '%' then ts.tails.any fun suf => likeMatch ps suf
    else if p = '\\' then
      match ps, ts with
      | q :: ps', t :: ts' => t == q && likeMatch ps' ts'
      | _, _ => false
    else
      match ts with
      | [] => false
      | t :: ts' => if p = '_' then likeMatch ps ts' else (t == p) && likeMatch ps ts' := by
  conv_lhs => rw [likeMatch.eq_def]

lemma likeMatch_lit_cons (c : Char) (ps : List Char) (t : Char) (ts : List Char)
    (h1 : c ≠ '%') (h2 : c ≠ '\\') (h3 : c ≠ '_') :
    likeMatch (c :: ps) (t :: ts) = ((t == c) && likeMatch ps ts) := by
  rw [likeMatch_cons, if_neg h1, if_neg h2]
  simp [h3]

lemma likeMatch_lit_nil (c : Char) (ps : List Char) (h1 : c ≠ '%') (h2 : c ≠ '\\') :
    likeMatch (c :: ps) [] = false := by
  rw [likeMatch_cons, if_neg h1, if_neg h2]

lemma likeMatch_esc_cons (q : Char) (ps : List Char) (t : Char) (ts : List Char) :
    likeMatch ('\\' :: q :: ps) (t :: ts) = ((t == q) && likeMatch ps ts) := by
  rw [likeMatch_cons, if_neg (by decide : ¬('\\' = '%')), if_pos rfl]

lemma likeMatch_esc_nil (q : Char) (ps : List Char) :
    likeMatch ('\\' :: q :: ps) [] = false := by
  rw [likeMatch_cons, if_neg (by decide : ¬('\\' = '%')), if_pos rfl]

lemma likeMatch_percent (ps ts : List Char) :
    likeMatch ('%' :: ps) ts = true ↔ ∃ a b, ts = a ++ b ∧ likeMatch ps b = true := by
  rw [likeMatch_cons, if_pos rfl, List.any_eq_true]
  constructor
  · rintro ⟨x, hx, hm⟩
    obtain ⟨a, rfl⟩ := (List.mem_tails x ts).mp hx
    exact ⟨a, x, rfl, hm⟩
  · rintro ⟨a, b, rfl, hm⟩
    exact ⟨b, (List.mem_tails b (a ++ b)).mpr ⟨a, rfl⟩, hm⟩

lemma not_special (c : Char) (h : isIlikeSpecial c = false) :
    c ≠ '%' ∧ c ≠ '_' ∧ c ≠ '\\' := by
  simp only [isIlikeSpecial, Bool.or_eq_false_iff, beq_eq_false_iff_ne, ne_eq] at h
  exact ⟨h.1.1, h.1.2, h.2⟩

lemma likeMatch_escapeChars (q ps ts : List Char) :
    likeMatch (escapeChars q ++ ps) ts = true ↔
      ∃ ts', ts = q ++ ts' ∧ likeMatch ps ts' = true := by
  induction q generalizing ts with
  | nil => simp [escapeChars]
  | cons c q ih =>
    cases hc : isIlikeSpecial c with
    | true =>
      simp only [escapeChars, hc, if_true, List.cons_append]
      cases ts with
      | nil =>
        simp [likeMatch_esc_nil]
      | cons t ts =>
        rw [likeMatch_esc_cons]
        simp only [Bool.and_eq_true, beq_iff_eq, ih, List.cons_append, List.cons.injEq]
        constructor
        · rintro ⟨rfl, ts', rfl, hm⟩
          exact ⟨ts', ⟨rfl, rfl⟩, hm⟩
        · rintro ⟨ts', ⟨rfl, rfl⟩, hm⟩
          exact ⟨rfl, ts', rfl, hm⟩
    | false =>
      obtain ⟨h1, h2, h3⟩ := not_special c hc
      simp only [escapeChars, hc, Bool.false_eq_true, if_false, List.cons_append]
      cases ts with
      | nil =>
        simp [likeMatch_lit_nil c _ h1 h3]
      | cons t ts =>
        rw [likeMatch_lit_cons c _ t ts h1 h3 h2]
        simp only [Bool.and_eq_true, beq_iff_eq, ih, List.cons_append, List.cons.injEq]
        constructor
        · rintro ⟨rfl, ts', rfl, hm⟩
          exact ⟨ts', ⟨rfl, rfl⟩, hm⟩
        · rintro ⟨ts', ⟨rfl, rfl⟩, hm⟩
          exact ⟨rfl, ts', rfl, hm⟩

lemma likeMatch_percent_singleton (ts : List Char) : likeMatch ['%'] ts = true :=
  (likeMatch_percent [] ts).mpr ⟨ts, [], by simp, rfl⟩

lemma likeMatch_pattern (q ts : List Char) :
    likeMatch ('%' :: (escapeChars q ++ ['%'])) ts = true ↔ ∃ a b, ts = a ++ q ++ b := by
  rw [likeMatch_percent]
  constructor
  · rintro ⟨a, b, rfl, hb⟩
    obtain ⟨ts', rfl, -⟩ := (likeMatch_escapeChars q ['%'] b).mp hb
    exact ⟨a, ts', by simp⟩
  · rintro ⟨a, b, rfl⟩
    refine ⟨a, q ++ b, by simp, ?_⟩
    exact (likeMatch_escapeChars q ['%'] (q ++ b)).mpr ⟨b, rfl, likeMatch_percent_singleton b⟩

lemma toLower_special (c : Char) (h : isIlikeSpecial c = true) : Char.toLower c = c := by
  simp only [isIlikeSpecial, Bool.or_eq_true, beq_iff_eq] at h
  rcases h with (h | h) | h <;> subst h <;> decide

lemma isIlikeSpecial_toLower (c : Char) : isIlikeSpecial (Char.toLower c) = isIlikeSpecial c := by
  cases hc : isIlikeSpecial c with
  | true => rw [toLower_special c hc, hc]
  | false =>
    unfold Char.toLower
    by_cases h : Char.toNat c ≥ 65 ∧ Char.toNat c ≤ 90
    · rw [if_pos h]
      obtain ⟨hl, hu⟩ := h
      revert hl hu
      generalize Char.toNat c = n
      intro hl hu
      interval_cases n <;> decide
    · rw [if_neg h]
      exact hc

lemma lowerChars_escapeChars (l : List Char) :
    lowerChars (escapeChars l) = escapeChars (lowerChars l) := by
  induction l with
  | nil => rfl
  | cons c cs ih =>
    cases hc : isIlikeSpecial c with
    | true =>
      have hbs : Char.toLower '\\' = '\\' := by decide
      simp only [escapeChars, hc, if_true, lowerChars, List.map_cons, hbs,
        toLower_special c hc]
      rw [show List.map Char.toLower (escapeChars cs) = escapeChars (lowerChars cs) from ih]
      simp [escapeChars, isIlikeSpecial_toLower, toLower_special c hc, hc]
      rfl
    | false =>
      simp only [escapeChars, hc, Bool.false_eq_true, if_false, lowerChars, List.map_cons]
      rw [show List.map Char.toLower (escapeChars cs) = escapeChars (lowerChars cs) from ih]
      simp [escapeChars, isIlikeSpecial_toLower, hc]
      rfl

/-- C7 — Keyword-query escaping: after `escapeIlike`, ILIKE with `%…%` wrapping
is exactly case-insensitive literal substring containment, for every query and
every record text. -/
theorem keyword_query_escaping (q t : String) :
    ilike t ("%" ++ escapeIlike q ++ "%") = true ↔
      containsLit (lowerChars q.data) (lowerChars t.data) := by
  have hdata : ("%" ++ escapeIlike q ++ "%").data = '%' :: (escapeChars q.data ++ ['%']) := rfl
  unfold ilike containsLit
  rw [hdata]
  have hlow : lowerChars ('%' :: (escapeChars q.data ++ ['%'])) =
      '%' :: (escapeChars (lowerChars q.data) ++ ['%']) := by
    simp only [lowerChars, List.map_cons, List.map_append]
    rw [show List.map Char.toLower (escapeChars q.data) =
          escapeChars (lowerChars q.data) from lowerChars_escapeChars q.data]
    have h1 : Char.toLower '%' = '%' := by decide
    rw [h1]
    rfl
  rw [hlow, likeMatch_pattern]

/-- Witness for C7 at a concrete query containing a `%` wildcard character:
the escaped pattern matches exactly the literal occurrence. -/
theorem keyword_query_escaping_witness :
    ilike "price is 50% off" ("%" ++ escapeIlike "50%" ++ "%") = true :=
  (keyword_query_escaping "50%" "price is 50% off").mpr
    ⟨"price is ".data.map Char.toLower, " off".data.map Char.toLower, by decide⟩

-- ══════════════════════════════════════════════════════════════
-- Generic lemmas about the sort / dedup helpers
-- ══════════════════════════════════════════════════════════════

lemma insertB_perm (le : α → α → Bool) (a : α) (l : List α) :
    (insertB le a l).Perm (a :: l) := by
  induction l with
  | nil => simp [insertB]
  | cons b bs ih =>
    simp only [insertB]
    split
    · exact List.Perm.refl _
    · exact ((ih.cons b).trans (List.Perm.swap a b bs)).symm.symm

lemma sortB_perm (le : α → α → Bool) (l : List α) : (sortB le l).Perm l := by
  induction l with
  | nil => simp [sortB]
  | cons a as ih =>
    exact (insertB_perm le a (sortB le as)).trans (ih.cons a)

lemma mem_of_mem_sortB {le : α → α → Bool} {l : List α} {a : α}
    (h : a ∈ sortB le l) : a ∈ l :=
  (sortB_perm le l).mem_iff.mp h

lemma dedupFirstAux_mem (l : List String) :
    ∀ (seen : List String) (x : String),
      x ∈ dedupFirstAux seen l ↔ x ∈ l ∧ ¬ seen.contains x = true := by
  induction l with
  | nil => simp [dedupFirstAux]
  | cons y ys ih =>
    intro seen x
    simp only [dedupFirstAux]
    split
    · rename_i hy
      rw [ih seen x]
      constructor
      · rintro ⟨hx, hs⟩
        exact ⟨List.mem_cons_of_mem y hx, hs⟩
      · rintro ⟨hx, hs⟩
        rcases List.mem_cons.mp hx with rfl | hx
        · exact absurd hy hs
        · exact ⟨hx, hs⟩
    · rename_i hy
      rw [List.mem_cons, ih (y :: seen) x]
      constructor
      · rintro (rfl | ⟨hx, hs⟩)
        · exact ⟨List.mem_cons_self x ys, hy⟩
        · refine ⟨List.mem_cons_of_mem y hx, fun hc => hs ?_⟩
          simp [List.contains, List.elem_cons, hc]
          rcases List.elem_eq_true_of_mem (List.elem_iff.mp hc) with _
          exact Or.inr (List.elem_iff.mp hc)
      · rintro ⟨hx, hs⟩
        rcases List.mem_cons.mp hx with rfl | hx
        · exact Or.inl rfl
        · by_cases hxy : x = y
          · exact Or.inl hxy
          · refine Or.inr ⟨hx, fun hc => ?_⟩
            have : x ∈ y :: seen := List.elem_iff.mp hc
            rcases List.mem_cons.mp this with rfl | hmem
            · exact hxy rfl
            · exact hs (List.elem_iff.mpr hmem)

lemma dedupFirstAux_nodup (l : List String) :
    ∀ seen : List String, (dedupFirstAux seen l).Nodup := by
  induction l with
  | nil => intro seen; simp [dedupFirstAux]
  | cons y ys ih =>
    intro seen
    simp only [dedupFirstAux]
    split
    · exact ih seen
    · refine List.Nodup.cons (fun hmem => ?_) (ih (y :: seen))
      have := (dedupFirstAux_mem ys (y :: seen) y).mp hmem
      exact this.2 (List.elem_iff.mpr (List.mem_cons_self y seen))

lemma dedupFirst_mem (l : List String) (x : String) : x ∈ dedupFirst l ↔ x ∈ l := by
  unfold dedupFirst
  rw [dedupFirstAux_mem]
  simp [List.contains]

lemma dedupFirst_nodup (l : List String) : (dedupFirst l).Nodup :=
  dedupFirstAux_nodup l []

lemma dedupSeenAux_eq_dedupSpec (l : List SResult) :
    ∀ seen : List Nat,
      dedupSeenAux seen l = dedupSpec (l.filter fun x => !(seen.contains x.id)) := by
  induction l with
  | nil => intro seen; simp [dedupSeenAux, dedupSpec]
  | cons r rest ih =>
    intro seen
    simp only [dedupSeenAux, List.filter_cons]
    split
    · rename_i hr
      rw [hr]
      simp only [Bool.not_true, Bool.false_eq_true, if_false]
      exact ih seen
    · rename_i hr
      rw [Bool.not_eq_true] at hr
      rw [hr]
      simp only [Bool.not_false, if_true]
      rw [dedupSpec, ih (r.id :: seen), List.filter_filter]
      congr 1
      apply congrArg dedupSpec
      apply List.filter_congr
      intro x _
      show (!(r.id :: seen).contains x.id) = ((x.id != r.id) && !(seen.contains x.id))
      show (!((x.id == r.id) || seen.contains x.id)) = _
      rw [Bool.not_or]
      rfl

lemma dedupSeenAux_nodup_and_avoids (l : List SResult) :
    ∀ seen : List Nat,
      ((dedupSeenAux seen l).map (·.id)).Nodup ∧
        ∀ r ∈ dedupSeenAux seen l, ¬ seen.contains r.id = true := by
  induction l with
  | nil => intro seen; simp [dedupSeenAux]
  | cons r rest ih =>
    intro seen
    simp only [dedupSeenAux]
    split
    · rename_i hr
      exact ih seen
    · rename_i hr
      rw [Bool.not_eq_true] at hr
      obtain ⟨ihnd, ihav⟩ := ih (r.id :: seen)
      refine ⟨?_, ?_⟩
      · simp only [List.map_cons]
        refine List.Nodup.cons (fun hmem => ?_) ihnd
        obtain ⟨x, hx, hxid⟩ := List.mem_map.mp hmem
        have := ihav x hx
        exact this (List.elem_iff.mpr (by rw [hxid]; exact List.mem_cons_self r.id seen))
      · intro x hx
        rcases List.mem_cons.mp hx with rfl | hx
        · rw [hr]; simp
        · intro hc
          exact ihav x hx (List.elem_iff.mpr (List.mem_cons_of_mem _ (List.elem_iff.mp hc)))

lemma dedupSeenAux_eq_self (l : List SResult) :
    ∀ seen : List Nat, ((l.map (·.id)).Nodup) →
      (∀ x ∈ l, ¬ seen.contains x.id = true) → dedupSeenAux seen l = l := by
  induction l with
  | nil => intro seen _ _; rfl
  | cons r rest ih =>
    intro seen hnd hav
    simp only [dedupSeenAux]
    rw [if_neg (hav r (List.mem_cons_self r rest))]
    congr 1
    simp only [List.map_cons, List.nodup_cons] at hnd
    refine ih (r.id :: seen) hnd.2 ?_
    intro x hx hc
    have : x.id ∈ r.id :: seen := List.elem_iff.mp hc
    rcases List.mem_cons.mp this with heq | hmem
    · exact hnd.1 (heq ▸ List.mem_map_of_mem (·.id) hx)
    · exact hav x (List.mem_cons_of_mem r hx) (List.elem_iff.mpr hmem)

-- ══════════════════════════════════════════════════════════════
-- C9 — instruction dedup is a complete no-op
-- ══════════════════════════════════════════════════════════════

/-- C9 — Instruction dedup no-op: when `addInstruction` finds a similar active
instruction in the same scope, it performs no write at all — the database
(instructions, embeddings, everything) is returned untouched — and reports the
existing instruction's id with `deduplicated = true`. -/
theorem instruction_dedup_noop (cap : SimCap) (env : WriteEnv) (db : DB)
    (projectId : String) (p : InstructionParams) (i : Nat)
    (h : findSimilarInstruction cap db projectId p.content = some i) :
    addInstruction cap env db projectId p = (db, { id := i, deduplicated := true }) := by
  unfold addInstruction
  rw [h]

def c9db : DB :=
  ⟨[], [⟨1, "p1", "Always run tests first", "general", 0, [], true, 5⟩], [], []⟩

/-- Witness for C9 at a concrete database and call. -/
theorem instruction_dedup_noop_witness :
    findSimilarInstruction .failed c9db "p1" "Always run tests first" = some 1 ∧
      addInstruction .failed ⟨7, 8, 9, some [1]⟩ c9db "p1" { content := "Always run tests first" } =
        (c9db, { id := 1, deduplicated := true }) :=
  ⟨by decide,
   instruction_dedup_noop .failed ⟨7, 8, 9, some [1]⟩ c9db "p1"
     { content := "Always run tests first" } 1 (by decide)⟩

-- ══════════════════════════════════════════════════════════════
-- C10 — removeInstruction is a soft delete
-- ══════════════════════════════════════════════════════════════

lemma retrieveMemory_congr (dist : Vec → Vec → ℚ) (qvec : Option Vec) (d1 d2 : DB)
    (projectId : String) (p : SearchParams) (h : d1.embeddings = d2.embeddings) :
    retrieveMemory dist qvec d1 projectId p = retrieveMemory dist qvec d2 projectId p := by
  unfold retrieveMemory semanticSub semanticResults keywordResults
  rw [h]

/-- C10 — removeInstruction only clears the active flag: it deletes neither
the instruction row nor any embedding row, every instruction's id/content
survive, and every memory search returns exactly the same results afterwards. -/
theorem remove_instruction_soft_delete (db : DB) (projectId : String) (id : Nat) :
    (removeInstruction db projectId id).embeddings = db.embeddings ∧
    (removeInstruction db projectId id).instructions.length = db.instructions.length ∧
    (∀ ins ∈ db.instructions, ∃ ins' ∈ (removeInstruction db projectId id).instructions,
        ins'.id = ins.id ∧ ins'.content = ins.content ∧ ins'.project_id = ins.project_id ∧
          ins'.category = ins.category ∧ ins'.priority = ins.priority ∧ ins'.tags = ins.tags) ∧
    (∀ dist qvec pid p,
        retrieveMemory dist qvec (removeInstruction db projectId id) pid p =
          retrieveMemory dist qvec db pid p) := by
  refine ⟨rfl, by simp [removeInstruction], ?_, ?_⟩
  · intro ins hins
    refine ⟨(if ins.id == id && ins.project_id == projectId then
        { ins with active := false } else ins), ?_, ?_⟩
    · exact List.mem_map_of_mem _ hins
    · split <;> simp
  · intro dist qvec pid p
    exact retrieveMemory_congr dist qvec _ db pid p rfl

def c10db : DB :=
  ⟨[], [⟨1, "p1", "Never push to main", "general", 0, [], true, 5⟩], [],
    [⟨4, "p1", "instruction", 1, "instruction", "Never push to main", [2], 5, []⟩]⟩

/-- Witness for C10 at a concrete database. -/
theorem remove_instruction_soft_delete_witness :
    (removeInstruction c10db "p1" 1).embeddings = c10db.embeddings ∧
      (removeInstruction c10db "p1" 1).instructions.length = c10db.instructions.length ∧
      (∀ ins ∈ c10db.instructions, ∃ ins' ∈ (removeInstruction c10db "p1" 1).instructions,
          ins'.id = ins.id ∧ ins'.content = ins.content ∧ ins'.project_id = ins.project_id ∧
            ins'.category = ins.category ∧ ins'.priority = ins.priority ∧ ins'.tags = ins.tags) ∧
      (∀ dist qvec pid p,
          retrieveMemory dist qvec (removeInstruction c10db "p1" 1) pid p =
            retrieveMemory dist qvec c10db pid p) :=
  remove_instruction_soft_delete c10db "p1" 1

-- ══════════════════════════════════════════════════════════════
-- C6 — similarity-resolver fallback to exact equality
-- ══════════════════════════════════════════════════════════════

/-- C6 — Similarity-resolver fallback: when the fuzzy-similarity capability
fails, each of the three write-path duplicate lookups falls back to exact
string equality on the same scope and discriminant: it returns `none` exactly
when no exact match exists, and any id it returns belongs to an exact match. -/
theorem similarity_resolver_fallback (db : DB) (projectId content category msg : String) :
    ((findSimilarNote .failed db projectId content category = none ↔
        ∀ n ∈ db.notes,
          ¬(n.project_id = projectId ∧ n.category = category ∧ n.content = content)) ∧
     (∀ i, findSimilarNote .failed db projectId content category = some i →
        ∃ n ∈ db.notes, n.id = i ∧ n.project_id = projectId ∧ n.category = category ∧
          n.content = content)) ∧
    ((findSimilarInstruction .failed db projectId content = none ↔
        ∀ ins ∈ db.instructions,
          ¬(ins.project_id = projectId ∧ ins.active = true ∧ ins.content = content)) ∧
     (∀ i, findSimilarInstruction .failed db projectId content = some i →
        ∃ ins ∈ db.instructions, ins.id = i ∧ ins.project_id = projectId ∧
          ins.active = true ∧ ins.content = content)) ∧
    ((findSimilarErrorPattern .failed db projectId msg = none ↔
        ∀ e ∈ db.error_patterns, ¬(e.project_id = projectId ∧ e.error_message = msg)) ∧
     (∀ ep, findSimilarErrorPattern .failed db projectId msg = some ep →
        ep ∈ db.error_patterns ∧ ep.project_id = projectId ∧ ep.error_message = msg)) := by
  refine ⟨⟨?_, ?_⟩, ⟨?_, ?_⟩, ⟨?_, ?_⟩⟩
  · unfold findSimilarNote
    rw [Option.map_eq_none', List.head?_eq_none_iff, List.filter_eq_nil_iff]
    constructor
    · intro h n hn hprop
      exact h n hn (by simp [hprop.1, hprop.2.1, hprop.2.2])
    · intro h n hn hb
      simp only [Bool.and_eq_true, beq_iff_eq] at hb
      exact h n hn ⟨hb.1.1, hb.1.2, hb.2⟩
  · intro i h
    unfold findSimilarNote at h
    obtain ⟨n, hn, rfl⟩ := Option.map_eq_some'.mp h
    have hmem := List.mem_of_mem_head? (by rw [hn]; rfl)
    obtain ⟨hmem', hb⟩ := List.mem_filter.mp hmem
    simp only [Bool.and_eq_true, beq_iff_eq] at hb
    exact ⟨n, hmem', rfl, hb.1.1, hb.1.2, hb.2⟩
  · unfold findSimilarInstruction
    rw [Option.map_eq_none', List.head?_eq_none_iff, List.filter_eq_nil_iff]
    constructor
    · intro h ins hins hprop
      exact h ins hins (by simp [hprop.1, hprop.2.1, hprop.2.2])
    · intro h ins hins hb
      simp only [Bool.and_eq_true, beq_iff_eq] at hb
      exact h ins hins ⟨hb.1.1, hb.1.2, hb.2⟩
  · intro i h
    unfold findSimilarInstruction at h
    obtain ⟨ins, hins, rfl⟩ := Option.map_eq_some'.mp h
    have hmem := List.mem_of_mem_head? (by rw [hins]; rfl)
    obtain ⟨hmem', hb⟩ := List.mem_filter.mp hmem
    simp only [Bool.and_eq_true, beq_iff_eq] at hb
    exact ⟨ins, hmem', rfl, hb.1.1, hb.1.2, hb.2⟩
  · simp only [findSimilarErrorPattern]
    rw [List.head?_eq_none_iff, List.filter_eq_nil_iff]
    constructor
    · intro h e he hprop
      exact h e he (by simp [hprop.1, hprop.2])
    · intro h e he hb
      simp only [Bool.and_eq_true, beq_iff_eq] at hb
      exact h e he ⟨hb.1, hb.2⟩
  · intro ep h
    simp only [findSimilarErrorPattern] at h
    have hmem := List.mem_of_mem_head? (α := ErrorPattern) (by rw [h]; rfl)
    obtain ⟨hmem', hb⟩ := List.mem_filter.mp hmem
    simp only [Bool.and_eq_true, beq_iff_eq] at hb
    exact ⟨hmem', hb.1, hb.2⟩

/-- Witness for C6: on an empty database the fallback lookups all report
`none`, i.e. the write path proceeds to a plain insert. -/
theorem similarity_resolver_fallback_witness :
    findSimilarNote .failed ⟨[], [], [], []⟩ "p1" "x" "general" = none :=
  ((similarity_resolver_fallback ⟨[], [], [], []⟩ "p1" "x" "general" "m").1.1).mpr
    (by intro n hn; simp at hn)

-- ══════════════════════════════════════════════════════════════
-- Lemmas about the two sub-queries
-- ══════════════════════════════════════════════════════════════

lemma keywordResults_ids_nodup (db : DB) (projectId query : String)
    (ct : Option String) (tags : Option (List String)) (limit : Nat)
    (h : (db.embeddings.map (·.id)).Nodup) :
    ((keywordResults db projectId query ct tags limit).map (·.id)).Nodup := by
  unfold keywordResults
  rw [List.map_map]
  have h1 : ((db.embeddings.filter fun e =>
      e.project_id == projectId && ilike e.content_text ("%" ++ escapeIlike query ++ "%") &&
        passesFilters ct tags e).map (·.id)).Nodup :=
    ((List.filter_sublist db.embeddings).map (·.id)).nodup h
  have h2 := ((sortB_perm (fun a b => decide (b.created_at ≤ a.created_at))
      (db.embeddings.filter fun e =>
        e.project_id == projectId && ilike e.content_text ("%" ++ escapeIlike query ++ "%") &&
          passesFilters ct tags e)).map (·.id)).symm.nodup h1
  exact ((List.take_sublist limit (sortB (fun a b => decide (b.created_at ≤ a.created_at))
    (db.embeddings.filter fun e =>
      e.project_id == projectId && ilike e.content_text ("%" ++ escapeIlike query ++ "%") &&
        passesFilters ct tags e))).map (·.id)).nodup h2

lemma keywordResults_length_le (db : DB) (projectId query : String)
    (ct : Option String) (tags : Option (List String)) (limit : Nat) :
    (keywordResults db projectId query ct tags limit).length ≤ limit := by
  unfold keywordResults
  rw [List.length_map]
  exact List.length_take_le _ _

-- ══════════════════════════════════════════════════════════════
-- C2 — hybrid merge semantics
-- ══════════════════════════════════════════════════════════════

lemma filter_not_contains_nil (l : List SResult) :
    (l.filter fun x => !(([] : List Nat).contains x.id)) = l := by
  have hfn : (fun (x : SResult) => !(([] : List Nat).contains x.id)) = fun _ => true := by
    funext x
    rfl
  rw [hfn, List.filter_true]

lemma retrieveMemory_hybrid_form (dist : Vec → Vec → ℚ) (qvec : Option Vec) (db : DB)
    (projectId : String) (p : SearchParams) (hmode : p.mode = .hybrid) :
    retrieveMemory dist qvec db projectId p =
      (dedupSeenAux [] (semanticSub dist qvec db projectId p.content_type p.tags p.limit ++
          keywordResults db projectId p.query p.content_type p.tags p.limit)).take p.limit := by
  simp [retrieveMemory, hmode]

/-- C2 — Hybrid merge: in hybrid mode the result is exactly the semantic
sub-query results concatenated before the keyword sub-query results, with
duplicate record ids removed keeping the first occurrence, truncated to
`limit` — and the hybrid result carries no duplicate ids.  Semantic-only and
keyword-only modes return their single sub-query's results as-is. -/
theorem hybrid_merge_correct (dist : Vec → Vec → ℚ) (qvec : Option Vec) (db : DB)
    (projectId : String) (p : SearchParams) :
    (p.mode = .hybrid →
      retrieveMemory dist qvec db projectId p =
        (dedupSpec (semanticSub dist qvec db projectId p.content_type p.tags p.limit ++
            keywordResults db projectId p.query p.content_type p.tags p.limit)).take p.limit) ∧
    (p.mode = .semantic →
      retrieveMemory dist qvec db projectId p =
        semanticSub dist qvec db projectId p.content_type p.tags p.limit) ∧
    (p.mode = .keyword →
      retrieveMemory dist qvec db projectId p =
        keywordResults db projectId p.query p.content_type p.tags p.limit) ∧
    (p.mode = .hybrid → ((retrieveMemory dist qvec db projectId p).map (·.id)).Nodup) := by
  refine ⟨?_, ?_, ?_, ?_⟩
  · intro hmode
    rw [retrieveMemory_hybrid_form dist qvec db projectId p hmode,
      dedupSeenAux_eq_dedupSpec, filter_not_contains_nil]
  · intro hmode
    simp [retrieveMemory, hmode]
  · intro hmode
    simp [retrieveMemory, hmode]
  · intro hmode
    rw [retrieveMemory_hybrid_form dist qvec db projectId p hmode]
    have hnd := (dedupSeenAux_nodup_and_avoids
      (semanticSub dist qvec db projectId p.content_type p.tags p.limit ++
        keywordResults db projectId p.query p.content_type p.tags p.limit) []).1
    exact ((List.take_sublist p.limit (dedupSeenAux []
      (semanticSub dist qvec db projectId p.content_type p.tags p.limit ++
        keywordResults db projectId p.query p.content_type p.tags p.limit))).map (·.id)).nodup hnd

-- ══════════════════════════════════════════════════════════════
-- Lemmas describing the two paths of addNote
-- ══════════════════════════════════════════════════════════════

lemma addNote_insert_spec (cap : SimCap) (env : WriteEnv) (db : DB) (projectId : String)
    (p : NoteParams)
    (h : findSimilarNote cap db projectId p.content ((strOrNull p.category).getD "general") = none) :
    (addNote cap env db projectId p).1.notes = db.notes ++
      [{ id := env.freshId, project_id := projectId, content := p.content,
         category := (strOrNull p.category).getD "general", tags := p.tags.getD [],
         related_files := p.related_files.getD [], snapshot_id := p.snapshot_id,
         created_at := env.now }] ∧
    (addNote cap env db projectId p).2 = ⟨env.freshId, false⟩ ∧
    (env.embedVec = none → (addNote cap env db projectId p).1.embeddings = db.embeddings) := by
  cases hv : env.embedVec with
  | none => simp [addNote, h, hv]
  | some v => simp [addNote, h, hv]

lemma addNote_merge_spec (cap : SimCap) (env : WriteEnv) (db : DB) (projectId : String)
    (p : NoteParams) (i : Nat)
    (h : findSimilarNote cap db projectId p.content ((strOrNull p.category).getD "general") =
      some i) :
    (addNote cap env db projectId p).1.notes = db.notes.map (fun n =>
      if n.id == i then
        { n with content := p.content, tags := p.tags.getD [], created_at := env.now }
      else n) ∧
    (addNote cap env db projectId p).2 = ⟨i, true⟩ ∧
    (addNote cap env db projectId p).1.instructions = db.instructions ∧
    (addNote cap env db projectId p).1.error_patterns = db.error_patterns := by
  cases hv : env.embedVec with
  | none => simp [addNote, h, hv]
  | some v => simp [addNote, h, hv]

-- ══════════════════════════════════════════════════════════════
-- C5 — degraded mode
-- ══════════════════════════════════════════════════════════════

/-- C5 — Degraded mode: `embed` never raises — every failing call (network
error, timeout, non-success response, failed liveness probe) yields `none`;
with the gateway unavailable, hybrid search returns exactly the keyword
sub-query's results; and `addNote` still succeeds without writing any
embedding row. -/
theorem degraded_mode :
    (∀ (flag : Option Bool) (env : EmbedEnv) (texts : List String),
        texts ≠ [] → (∀ vs, env.outcome ≠ .ok vs) → (embed flag env texts).1 = none) ∧
    (∀ (flag : Option Bool) (env : EmbedEnv) (texts : List String),
        texts ≠ [] → env.health = false → flag ≠ some true → (embed flag env texts).1 = none) ∧
    (∀ (dist : Vec → Vec → ℚ) (db : DB) (projectId : String) (p : SearchParams),
        p.mode = .hybrid → (db.embeddings.map (·.id)).Nodup →
        retrieveMemory dist none db projectId p =
          keywordResults db projectId p.query p.content_type p.tags p.limit) ∧
    (∀ (cap : SimCap) (env : WriteEnv) (db : DB) (projectId : String) (p : NoteParams),
        env.embedVec = none →
        findSimilarNote cap db projectId p.content ((strOrNull p.category).getD "general") = none →
        (addNote cap env db projectId p).1.embeddings = db.embeddings ∧
        (∃ n, (addNote cap env db projectId p).1.notes = db.notes ++ [n] ∧
            n.id = env.freshId ∧ n.content = p.content ∧ n.project_id = projectId) ∧
        (addNote cap env db projectId p).2 = ⟨env.freshId, false⟩) := by
  refine ⟨?_, ?_, ?_, ?_⟩
  · intro flag env texts hne hout
    have hni : texts.isEmpty = false := by
      cases texts with
      | nil => exact absurd rfl hne
      | cons a as => rfl
    simp only [embed, hni, Bool.false_eq_true, if_false]
    split
    · cases htc : env.outcome with
      | ok vs => exact absurd htc (hout vs)
      | httpError => rfl
      | netError => rfl
      | timeout => rfl
    · rfl
  · intro flag env texts hne hh hflag
    have hni : texts.isEmpty = false := by
      cases texts with
      | nil => exact absurd rfl hne
      | cons a as => rfl
    cases flag with
    | none => simp [embed, hni, checkEmbeddingService, hh]
    | some b =>
      cases b with
      | false => simp [embed, hni, checkEmbeddingService, hh]
      | true => exact absurd rfl hflag
  · intro dist db projectId p hmode hnd
    rw [retrieveMemory_hybrid_form dist none db projectId p hmode]
    have hkwnd := keywordResults_ids_nodup db projectId p.query p.content_type p.tags p.limit hnd
    have hkwlen := keywordResults_length_le db projectId p.query p.content_type p.tags p.limit
    rw [show semanticSub dist none db projectId p.content_type p.tags p.limit = [] from rfl,
      List.nil_append,
      dedupSeenAux_eq_self _ [] hkwnd (by intro x _; simp [List.contains]),
      List.take_of_length_le hkwlen]
  · intro cap env db projectId p hvec hfind
    obtain ⟨hnotes, hres, hemb⟩ := addNote_insert_spec cap env db projectId p hfind
    exact ⟨hemb hvec, ⟨_, hnotes, rfl, rfl, rfl⟩, hres⟩

def c2db : DB := ⟨[], [], [],
  [⟨1, "p1", "note", 10, "note", "alpha beta", [1], 100, []⟩,
   ⟨2, "p1", "note", 11, "note", "beta gamma", [2], 200, []⟩]⟩

def c2dist : Vec → Vec → ℚ := fun a _ => ((a.headD 0 : Int) : ℚ)

def c2params : SearchParams := { query := "beta" }

/-- Witness for C2 at a concrete database and query. -/
theorem hybrid_merge_correct_witness :
    retrieveMemory c2dist (some [0]) c2db "p1" c2params =
      (dedupSpec (semanticSub c2dist (some [0]) c2db "p1" c2params.content_type c2params.tags
          c2params.limit ++
        keywordResults c2db "p1" c2params.query c2params.content_type c2params.tags
          c2params.limit)).take c2params.limit :=
  (hybrid_merge_correct c2dist (some [0]) c2db "p1" c2params).1 rfl

/-- Witness for C5: each degraded-mode guarantee at a concrete input. -/
theorem degraded_mode_witness :
    (embed none ⟨false, .netError⟩ ["x"]).1 = none ∧
    (embed (some true) ⟨true, .timeout⟩ ["x"]).1 = none ∧
    retrieveMemory c2dist none c2db "p1" c2params =
      keywordResults c2db "p1" c2params.query c2params.content_type c2params.tags
        c2params.limit ∧
    (addNote .failed ⟨5, 6, 7, none⟩ ⟨[], [], [], []⟩ "p1" { content := "hello" }).2 =
      ⟨5, false⟩ :=
  ⟨degraded_mode.1 none ⟨false, .netError⟩ ["x"] (by decide) (fun vs h => nomatch h),
   degraded_mode.1 (some true) ⟨true, .timeout⟩ ["x"] (by decide) (fun vs h => nomatch h),
   degraded_mode.2.2.1 c2dist c2db "p1" c2params rfl (by decide),
   (degraded_mode.2.2.2 .failed ⟨5, 6, 7, none⟩ ⟨[], [], [], []⟩ "p1" { content := "hello" }
     rfl (by decide)).2.2⟩

-- ══════════════════════════════════════════════════════════════
-- C1 — note dedup idempotence
-- ══════════════════════════════════════════════════════════════

lemma noteFilter_nil (score : String → String → ℚ) (notes : List Note)
    (projectId c cat : String)
    (h : ∀ n ∈ notes, n.project_id = projectId → n.category = cat →
      ¬(score n.content c > 4/5)) :
    (notes.filter fun n => n.project_id == projectId && n.category == cat &&
        decide (score n.content c > 4/5)) = [] := by
  rw [List.filter_eq_nil_iff]
  intro n hn hb
  simp only [Bool.and_eq_true, beq_iff_eq, decide_eq_true_eq] at hb
  exact h n hn hb.1.1 hb.1.2 hb.2

lemma findSimilarNote_avail_none (score : String → String → ℚ) (db : DB)
    (projectId c cat : String)
    (h : ∀ n ∈ db.notes, n.project_id = projectId → n.category = cat →
      ¬(score n.content c > 4/5)) :
    findSimilarNote (.avail score) db projectId c cat = none := by
  simp only [findSimilarNote]
  rw [noteFilter_nil score db.notes projectId c cat h]
  rfl

/-- C1 — Dedup idempotence for notes: if no existing note in the scope and
category is similar to either content, and the two contents are mutually
similar above the 0.8 threshold, then inserting the first note and then the
second yields exactly one new note record; the second call returns the first
call's id, reports `deduplicated = true`, and the matched record carries the
second call's content with a refreshed timestamp. -/
theorem note_dedup_idempotent (score : String → String → ℚ) (env1 env2 : WriteEnv)
    (db : DB) (projectId : String) (p1 p2 : NoteParams)
    (hcat : p1.category = p2.category)
    (hno1 : ∀ n ∈ db.notes, n.project_id = projectId →
      n.category = (strOrNull p1.category).getD "general" → ¬(score n.content p1.content > 4/5))
    (hno2 : ∀ n ∈ db.notes, n.project_id = projectId →
      n.category = (strOrNull p1.category).getD "general" → ¬(score n.content p2.content > 4/5))
    (hsim : score p1.content p2.content > 4/5) :
    (addNote (.avail score) env2 (addNote (.avail score) env1 db projectId p1).1 projectId p2).2 =
        ⟨(addNote (.avail score) env1 db projectId p1).2.id, true⟩ ∧
    (addNote (.avail score) env1 db projectId p1).2.id = env1.freshId ∧
    (addNote (.avail score) env2 (addNote (.avail score) env1 db projectId p1).1
        projectId p2).1.notes.length = db.notes.length + 1 ∧
    (∃ n ∈ (addNote (.avail score) env2 (addNote (.avail score) env1 db projectId p1).1
        projectId p2).1.notes,
      n.id = env1.freshId ∧ n.content = p2.content ∧ n.created_at = env2.now) := by
  have hfind1 : findSimilarNote (.avail score) db projectId p1.content
      ((strOrNull p1.category).getD "general") = none :=
    findSimilarNote_avail_none score db projectId p1.content _ hno1
  obtain ⟨hnotes1, hres1, -⟩ := addNote_insert_spec (.avail score) env1 db projectId p1 hfind1
  set n1 : Note :=
    { id := env1.freshId, project_id := projectId, content := p1.content,
      category := (strOrNull p1.category).getD "general", tags := p1.tags.getD [],
      related_files := p1.related_files.getD [], snapshot_id := p1.snapshot_id,
      created_at := env1.now } with hn1
  have hfind2 : findSimilarNote (.avail score)
      (addNote (.avail score) env1 db projectId p1).1 projectId p2.content
      ((strOrNull p2.category).getD "general") = some env1.freshId := by
    simp only [findSimilarNote, hnotes1]
    rw [List.filter_append,
      noteFilter_nil score db.notes projectId p2.content _ (by rw [← hcat]; exact hno2)]
    have hone : ([n1].filter fun n => n.project_id == projectId &&
        n.category == (strOrNull p2.category).getD "general" &&
        decide (score n.content p2.content > 4/5)) = [n1] := by
      simp [hn1, hcat, hsim]
    rw [List.nil_append, hone]
    rfl
  obtain ⟨hnotes2, hres2, -, -⟩ :=
    addNote_merge_spec (.avail score) env2 (addNote (.avail score) env1 db projectId p1).1
      projectId p2 env1.freshId hfind2
  refine ⟨?_, ?_, ?_, ?_⟩
  · rw [hres2, hres1]
  · rw [hres1]
  · rw [hnotes2, List.length_map, hnotes1, List.length_append, List.length_singleton]
  · refine ⟨(if n1.id == env1.freshId then
        { n1 with content := p2.content, tags := p2.tags.getD [], created_at := env2.now }
      else n1), ?_, ?_⟩
    · rw [hnotes2]
      apply List.mem_map_of_mem
      rw [hnotes1]
      exact List.mem_append_right _ (List.mem_singleton_self n1)
    · rw [if_pos (by simp [hn1])]
      exact ⟨rfl, rfl, rfl⟩

def c1p1 : NoteParams := { content := "Use JWT not sessions", category := some "decision" }

def c1p2 : NoteParams := { content := "Use JWT, not sessions.", category := some "decision" }

def c1score : String → String → ℚ := fun _ _ => 1

/-- Witness for C1: the spec's scenario on an empty database, with a
similarity oracle scoring the two contents above the 0.8 threshold. -/
theorem note_dedup_idempotent_witness :
    (addNote (.avail c1score) ⟨2, 102, 2000, some [2]⟩
        (addNote (.avail c1score) ⟨1, 101, 1000, some [1]⟩ ⟨[], [], [], []⟩ "p1" c1p1).1
        "p1" c1p2).2 =
      ⟨(addNote (.avail c1score) ⟨1, 101, 1000, some [1]⟩ ⟨[], [], [], []⟩ "p1" c1p1).2.id,
        true⟩ ∧
    (addNote (.avail c1score) ⟨1, 101, 1000, some [1]⟩ ⟨[], [], [], []⟩ "p1" c1p1).2.id = 1 ∧
    (addNote (.avail c1score) ⟨2, 102, 2000, some [2]⟩
        (addNote (.avail c1score) ⟨1, 101, 1000, some [1]⟩ ⟨[], [], [], []⟩ "p1" c1p1).1
        "p1" c1p2).1.notes.length = 1 :=
  have h := note_dedup_idempotent c1score ⟨1, 101, 1000, some [1]⟩ ⟨2, 102, 2000, some [2]⟩
    ⟨[], [], [], []⟩ "p1" c1p1 c1p2 rfl (by intro n hn; simp at hn)
    (by intro n hn; simp at hn) (by norm_num [c1score])
  ⟨h.1, h.2.1, h.2.2.1⟩

-- ══════════════════════════════════════════════════════════════
-- C8 — note merge frame
-- ══════════════════════════════════════════════════════════════

def c8note : Note := ⟨1, "p1", "Use JWT", "general", ["keep"], [], none, 10⟩

/-- Counterexample to C8 as stated: a dedup-merge of a note whose params omit
`tags` resets the matched note's tags to the empty list — the stored tags
`["keep"]` are not left unchanged. -/
theorem note_merge_overwrites_tags :
    (addNote .failed ⟨2, 9, 99, none⟩ ⟨[c8note], [], [], []⟩ "p1"
        { content := "Use JWT" }).1.notes.map (·.tags) = [[]] ∧
    c8note.tags = ["keep"] := by
  constructor
  · decide
  · rfl

/-- C8 (amended) — Note merge frame: a dedup-merge overwrites the matched
note's content, tags and timestamp; its category, related_files, snapshot_id
and project scope are left unchanged, every other note is untouched, and no
note is created or deleted. -/
theorem note_merge_frame (cap : SimCap) (env : WriteEnv) (db : DB) (projectId : String)
    (p : NoteParams) (i : Nat)
    (h : findSimilarNote cap db projectId p.content ((strOrNull p.category).getD "general") =
      some i) :
    (addNote cap env db projectId p).1.notes.length = db.notes.length ∧
    (∀ n ∈ db.notes, n.id ≠ i → n ∈ (addNote cap env db projectId p).1.notes) ∧
    (∀ n ∈ db.notes, n.id = i →
      ∃ n' ∈ (addNote cap env db projectId p).1.notes, n'.id = n.id ∧
        n'.content = p.content ∧ n'.tags = p.tags.getD [] ∧ n'.created_at = env.now ∧
        n'.category = n.category ∧ n'.related_files = n.related_files ∧
        n'.snapshot_id = n.snapshot_id ∧ n'.project_id = n.project_id) ∧
    (addNote cap env db projectId p).1.instructions = db.instructions ∧
    (addNote cap env db projectId p).1.error_patterns = db.error_patterns := by
  obtain ⟨hnotes, -, hins, herr⟩ := addNote_merge_spec cap env db projectId p i h
  refine ⟨?_, ?_, ?_, hins, herr⟩
  · rw [hnotes, List.length_map]
  · intro n hn hne
    rw [hnotes]
    have hfn : (if n.id == i then
        { n with content := p.content, tags := p.tags.getD [], created_at := env.now }
      else n) = n := if_neg (by simp [hne])
    rw [← hfn]
    exact List.mem_map_of_mem _ hn
  · intro n hn heq
    refine ⟨(if n.id == i then
        { n with content := p.content, tags := p.tags.getD [], created_at := env.now }
      else n), ?_, ?_⟩
    · rw [hnotes]
      exact List.mem_map_of_mem _ hn
    · rw [if_pos (by simp [heq])]
      exact ⟨rfl, rfl, rfl, rfl, rfl, rfl, rfl, rfl⟩

/-- Witness for C8 (amended) at a concrete database: the merge keeps exactly
one note. -/
theorem note_merge_frame_witness :
    (addNote .failed ⟨2, 9, 99, none⟩ ⟨[c8note], [], [], []⟩ "p1"
        { content := "Use JWT" }).1.notes.length = ([c8note] : List Note).length :=
  (note_merge_frame .failed ⟨2, 9, 99, none⟩ ⟨[c8note], [], [], []⟩ "p1"
    { content := "Use JWT" } 1 (by decide)).1

-- ══════════════════════════════════════════════════════════════
-- C3 — error pattern merge postcondition
-- ══════════════════════════════════════════════════════════════

lemma logErrorPattern_merge_spec (cap : SimCap) (env : WriteEnv) (db : DB)
    (projectId : String) (p : ErrorPatternParams) (existing : ErrorPattern)
    (h : findSimilarErrorPattern cap db projectId p.error_message = some existing) :
    (logErrorPattern cap env db projectId p).1.error_patterns = db.error_patterns.map (fun e =>
      if e.id == existing.id then
        { e with
          occurrence_count := e.occurrence_count + 1,
          last_seen_at := env.now,
          attempted_fixes := dedupFirst (existing.attempted_fixes ++ p.attempted_fixes.getD []),
          root_cause :=
            (match strOrNull p.root_cause with
             | some v => some v
             | none => e.root_cause),
          resolution :=
            (match strOrNull p.resolution with
             | some v => some v
             | none => e.resolution),
          file_paths := p.file_paths.getD e.file_paths }
      else e) ∧
    (logErrorPattern cap env db projectId p).2 = ⟨existing.id, true⟩ ∧
    (logErrorPattern cap env db projectId p).1.notes = db.notes ∧
    (logErrorPattern cap env db projectId p).1.instructions = db.instructions := by
  cases hr : strOrNull p.resolution with
  | none => simp [logErrorPattern, h, hr]
  | some r =>
    cases hv : env.embedVec with
    | none => simp [logErrorPattern, h, hr, hv]
    | some v => simp [logErrorPattern, h, hr, hv]

def c3ep : ErrorPattern := ⟨1, "p1", "ECONNRESET", "general", [], none, none, ["a.ts"], [], 1, 10, 10⟩

/-- Counterexample to C3 as stated: merging with an explicitly supplied empty
`file_paths` list overwrites the stored non-empty `file_paths` with the empty
list — the JS truthiness coercion `params.file_paths || null` lets an empty
array through, unlike the empty-string coercion used for rootCause/resolution. -/
theorem error_pattern_filepaths_overwritten :
    (logErrorPattern .failed ⟨5, 6, 50, none⟩ ⟨[], [], [c3ep], []⟩ "p1"
        { error_message := "ECONNRESET", file_paths := some [] }).1.error_patterns.map
      (·.file_paths) = [[]] ∧
    c3ep.file_paths = ["a.ts"] := by
  constructor
  · decide
  · rfl

/-- C3 (amended) — ErrorPattern merge postcondition: on a match the merged
record has occurrenceCount incremented by one, attemptedFixes equal to the set
union of the existing and incoming fixes (order-independent and duplicate
free), rootCause/resolution updated COALESCE-style (a non-empty new value
wins; an omitted or empty one never overwrites), filePaths replaced whenever
the field is supplied at all — including by an explicitly supplied empty list
— and kept only when omitted, and lastSeenAt refreshed; all other patterns and
tables are untouched. -/
theorem error_pattern_merge (cap : SimCap) (env : WriteEnv) (db : DB) (projectId : String)
    (p : ErrorPatternParams) (existing : ErrorPattern)
    (h : findSimilarErrorPattern cap db projectId p.error_message = some existing) :
    (logErrorPattern cap env db projectId p).1.error_patterns.length =
      db.error_patterns.length ∧
    (∀ e ∈ db.error_patterns, e.id ≠ existing.id →
      e ∈ (logErrorPattern cap env db projectId p).1.error_patterns) ∧
    (∀ e ∈ db.error_patterns, e.id = existing.id →
      ∃ e' ∈ (logErrorPattern cap env db projectId p).1.error_patterns, e'.id = e.id ∧
        e'.occurrence_count = e.occurrence_count + 1 ∧
        e'.last_seen_at = env.now ∧
        (∀ x, x ∈ e'.attempted_fixes ↔
          x ∈ existing.attempted_fixes ∨ x ∈ p.attempted_fixes.getD []) ∧
        e'.attempted_fixes.Nodup ∧
        (strOrNull p.root_cause = none → e'.root_cause = e.root_cause) ∧
        (∀ s, strOrNull p.root_cause = some s → e'.root_cause = some s) ∧
        (strOrNull p.resolution = none → e'.resolution = e.resolution) ∧
        (∀ s, strOrNull p.resolution = some s → e'.resolution = some s) ∧
        (p.file_paths = none → e'.file_paths = e.file_paths) ∧
        (∀ l, p.file_paths = some l → e'.file_paths = l)) ∧
    (logErrorPattern cap env db projectId p).2 = ⟨existing.id, true⟩ := by
  obtain ⟨heps, hres, -, -⟩ := logErrorPattern_merge_spec cap env db projectId p existing h
  refine ⟨?_, ?_, ?_, hres⟩
  · rw [heps, List.length_map]
  · intro e he hne
    rw [heps]
    have hfe : (if e.id == existing.id then
        { e with
          occurrence_count := e.occurrence_count + 1,
          last_seen_at := env.now,
          attempted_fixes := dedupFirst (existing.attempted_fixes ++ p.attempted_fixes.getD []),
          root_cause :=
            (match strOrNull p.root_cause with
             | some v => some v
             | none => e.root_cause),
          resolution :=
            (match strOrNull p.resolution with
             | some v => some v
             | none => e.resolution),
          file_paths := p.file_paths.getD e.file_paths }
      else e) = e := if_neg (by simp [hne])
    rw [← hfe]
    exact List.mem_map_of_mem _ he
  · intro e he heq
    refine ⟨(if e.id == existing.id then
        { e with
          occurrence_count := e.occurrence_count + 1,
          last_seen_at := env.now,
          attempted_fixes := dedupFirst (existing.attempted_fixes ++ p.attempted_fixes.getD []),
          root_cause :=
            (match strOrNull p.root_cause with
             | some v => some v
             | none => e.root_cause),
          resolution :=
            (match strOrNull p.resolution with
             | some v => some v
             | none => e.resolution),
          file_paths := p.file_paths.getD e.file_paths }
      else e), ?_, ?_⟩
    · rw [heps]
      exact List.mem_map_of_mem _ he
    · rw [if_pos (by simp [heq])]
      refine ⟨rfl, rfl, rfl, ?_, dedupFirst_nodup _, ?_, ?_, ?_, ?_, ?_, ?_⟩
      · intro x
        rw [dedupFirst_mem, List.mem_append]
      · intro hrc
        rw [hrc]
      · intro s hrc
        rw [hrc]
      · intro hrs
        rw [hrs]
      · intro s hrs
        rw [hrs]
      · intro hfp
        rw [hfp]
        rfl
      · intro l hfp
        rw [hfp]
        rfl

/-- Witness for C3 (amended): the spec's scenario — log `ECONNRESET` with a
root cause, then again with only a resolution; the merged record keeps the
first root cause, gains the resolution, and reaches occurrence count 2. -/
theorem error_pattern_merge_witness :
    (logErrorPattern .failed ⟨5, 6, 50, none⟩ ⟨[], [], [c3ep], []⟩ "p1"
        { error_message := "ECONNRESET", attempted_fixes := some ["f2"] }).1.error_patterns.length
      = ([c3ep] : List ErrorPattern).length :=
  (error_pattern_merge .failed ⟨5, 6, 50, none⟩ ⟨[], [], [c3ep], []⟩ "p1"
    { error_message := "ECONNRESET", attempted_fixes := some ["f2"] } c3ep (by decide)).1

-- ══════════════════════════════════════════════════════════════
-- C4 — embedding freshness
-- ══════════════════════════════════════════════════════════════

lemma addNote_insert_embs (cap : SimCap) (env : WriteEnv) (db : DB) (projectId : String)
    (p : NoteParams) (v : Vec)
    (h : findSimilarNote cap db projectId p.content ((strOrNull p.category).getD "general") = none)
    (hv : env.embedVec = some v) :
    (addNote cap env db projectId p).1.embeddings = db.embeddings ++
      [{ id := env.freshEmbId, project_id := projectId, source_type := "note",
         source_id := env.freshId,
         content_type := noteContentType ((strOrNull p.category).getD "general"),
         content_text := p.content, embedding := v, created_at := env.now,
         tags := p.tags.getD [] }] := by
  simp [addNote, h, hv]

lemma addNote_merge_embs (cap : SimCap) (env : WriteEnv) (db : DB) (projectId : String)
    (p : NoteParams) (i : Nat) (v : Vec)
    (h : findSimilarNote cap db projectId p.content ((strOrNull p.category).getD "general") =
      some i)
    (hv : env.embedVec = some v) :
    (addNote cap env db projectId p).1.embeddings = db.embeddings.map (fun e =>
      if e.source_type == "note" && e.source_id == i then
        { e with content_text := p.content, embedding := v, created_at := env.now }
      else e) := by
  simp [addNote, h, hv]

def c4note : Note := ⟨1, "p1", "old content", "general", [], [], none, 10⟩

def c4emb : EmbeddingRow := ⟨7, "p1", "note", 1, "note", "old content", [5], 10, []⟩

def c4db : DB := ⟨[c4note], [], [], [c4emb]⟩

def c4score : String → String → ℚ := fun _ _ => 1

lemma c4find : findSimilarNote (.avail c4score) c4db "p1" "new content" "general" = some 1 := by
  have hpred : ∀ n ∈ c4db.notes, (n.project_id == "p1" && n.category == "general" &&
      decide (c4score n.content "new content" > 4/5)) = true := by
    intro n hn
    rw [show c4db.notes = [c4note] from rfl, List.mem_singleton] at hn
    subst hn
    simp [c4score, c4note]
    norm_num
  simp only [findSimilarNote]
  rw [show c4db.notes = [c4note] from rfl]
  rw [List.filter_cons, if_pos (hpred c4note (by rw [show c4db.notes = [c4note] from rfl]; exact List.mem_singleton_self _))]
  rfl

/-- Counterexample to C4 as stated: a note dedup-merge performed while the
Embedding Gateway is unavailable updates the note's content but leaves the
old embedding row in place — the embedding no longer describes the note's
current text. -/
theorem embedding_freshness_violated :
    embFresh c4db ∧
    ¬ embFresh (addNote (.avail c4score) ⟨2, 9, 99, none⟩ c4db "p1"
        { content := "new content", category := some "general" }).1 := by
  constructor
  · intro e he hst n hn hid
    rw [show c4db.embeddings = [c4emb] from rfl, List.mem_singleton] at he
    subst he
    rw [show c4db.notes = [c4note] from rfl, List.mem_singleton] at hn
    subst hn
    rfl
  · intro hF
    have hfind : findSimilarNote (.avail c4score) c4db "p1" "new content"
        ((strOrNull (some "general")).getD "general") = some 1 := c4find
    obtain ⟨hnotes, -, -, -⟩ := addNote_merge_spec (.avail c4score) ⟨2, 9, 99, none⟩ c4db "p1"
      { content := "new content", category := some "general" } 1 hfind
    have hembs : (addNote (.avail c4score) ⟨2, 9, 99, none⟩ c4db "p1"
        { content := "new content", category := some "general" }).1.embeddings =
        c4db.embeddings := by
      simp [addNote, hfind]
    have hmeme : c4emb ∈ (addNote (.avail c4score) ⟨2, 9, 99, none⟩ c4db "p1"
        { content := "new content", category := some "general" }).1.embeddings := by
      rw [hembs]
      exact List.mem_singleton_self _
    have hmemn : (if c4note.id == 1 then
        { c4note with
          content := "new content",
          tags := ([] : List String),
          created_at := 99 }
      else c4note) ∈ (addNote (.avail c4score) ⟨2, 9, 99, none⟩ c4db "p1"
        { content := "new content", category := some "general" }).1.notes := by
      rw [hnotes]
      exact List.mem_map_of_mem _ (show c4note ∈ c4db.notes from List.mem_singleton_self _)
    have hbad := hF c4emb hmeme rfl _ hmemn (by rfl)
    exact absurd hbad (by decide)

/-- C4 (amended) — Embedding freshness for notes: provided the Embedding
Gateway returns a vector and the freshly generated id is genuinely fresh,
`addNote` (insert or merge) preserves the invariant that every note embedding
describes its note's current content; with the gateway unavailable a merge
can leave a stale embedding (see the counterexample). -/
theorem addNote_preserves_embedding_freshness (cap : SimCap) (env : WriteEnv) (db : DB)
    (projectId : String) (p : NoteParams) (v : Vec)
    (hvec : env.embedVec = some v)
    (hfresh1 : ∀ n ∈ db.notes, n.id ≠ env.freshId)
    (hfresh2 : ∀ e ∈ db.embeddings, e.source_id ≠ env.freshId)
    (hF : embFresh db) :
    embFresh (addNote cap env db projectId p).1 := by
  cases hfind : findSimilarNote cap db projectId p.content
      ((strOrNull p.category).getD "general") with
  | none =>
    obtain ⟨hnotes, -, -⟩ := addNote_insert_spec cap env db projectId p hfind
    have hembs := addNote_insert_embs cap env db projectId p v hfind hvec
    intro e he hst n hn hid
    rw [hembs, List.mem_append] at he
    rw [hnotes, List.mem_append] at hn
    rcases he with he | he
    · rcases hn with hn | hn
      · exact hF e he hst n hn hid
      · rw [List.mem_singleton] at hn
        subst hn
        exact absurd (show e.source_id = env.freshId from by rw [← hid]) (hfresh2 e he)
    · rw [List.mem_singleton] at he
      subst he
      rcases hn with hn | hn
      · exact absurd (show n.id = env.freshId from hid) (hfresh1 n hn)
      · rw [List.mem_singleton] at hn
        subst hn
        rfl
  | some i =>
    obtain ⟨hnotes, -, -, -⟩ := addNote_merge_spec cap env db projectId p i hfind
    have hembs := addNote_merge_embs cap env db projectId p i v hfind hvec
    intro e' he' hst n' hn' hid
    rw [hembs] at he'
    rw [hnotes] at hn'
    obtain ⟨e, he, rfl⟩ := List.mem_map.mp he'
    obtain ⟨n, hn, rfl⟩ := List.mem_map.mp hn'
    have hgid : (if n.id == i then
        { n with content := p.content, tags := p.tags.getD [], created_at := env.now }
      else n).id = n.id := by
      split <;> rfl
    by_cases hce : (e.source_type == "note" && e.source_id == i) = true
    · rw [if_pos hce] at hst hid ⊢
      have hesid : e.source_id = i := by
        simp only [Bool.and_eq_true, beq_iff_eq] at hce
        exact hce.2
      have hnid : n.id = i := by
        rw [← hgid, hid]
        exact hesid
      rw [if_pos (by simp [hnid])]
    · rw [if_neg hce] at hst hid ⊢
      have hesid : e.source_id ≠ i := by
        intro hcon
        apply hce
        simp [hst, hcon]
      have hnid : n.id ≠ i := by
        rw [← hgid, hid]
        exact hesid
      rw [if_neg (by simp [hnid])]
      exact hF e he hst n hn (by rw [← hid, hgid])

/-- Witness for C4 (amended): concrete merge with the gateway available — the
result satisfies the freshness invariant. -/
theorem addNote_preserves_embedding_freshness_witness :
    embFresh (addNote (.avail c4score) ⟨2, 9, 99, some [6]⟩ c4db "p1"
      { content := "new content", category := some "general" }).1 :=
  addNote_preserves_embedding_freshness (.avail c4score) ⟨2, 9, 99, some [6]⟩ c4db "p1"
    { content := "new content", category := some "general" } [6] rfl
    (by intro n hn; rw [show c4db.notes = [c4note] from rfl, List.mem_singleton] at hn; subst hn; decide)
    (by intro e he; rw [show c4db.embeddings = [c4emb] from rfl, List.mem_singleton] at he; subst he; decide)
    (by
      intro e he hst n hn hid
      rw [show c4db.embeddings = [c4emb] from rfl, List.mem_singleton] at he
      subst he
      rw [show c4db.notes = [c4note] from rfl, List.mem_singleton] at hn
      subst hn
      rfl)

end MemoryCortex
